import Mathlib

/-!
Shallow embedding of the chess rules engine of `src/chess_gui.py`
(classes `Figure`, `Pawn`, `Rook`, `Knight`, `Bishop`, `Queen`, `King`
and the engine parts of `WindowGui`).

Conventions carried over from the source:
* colors are `0` (white) and `1` (black);
* a square is an `(x, y)` pair, `x` = file `0..7`, `y` = rank `0..7`,
  the board grid is indexed `board[y][x]`;
* `check` is the source's multi-valued status flag:
  `0` in progress, `1` white in check, `2` black in check, `4` promotion
  pending / paused, `5` timeout, `6` checkmate, `7` stalemate,
  `8` threefold repetition, `9` fifty-move draw;
* `moveCount` is `WindowGui.MoveCount`; a piece may move when
  `moveCount % 2 == color` at the time its valid moves are computed.

Python mutates `Figure` objects held in `WindowGui._gui_elements`; here a
piece carries a numeric identity `fid` and the element list is threaded
explicitly.  Squares use `Int` coordinates because the source's direction
vectors go negative; every board access mirrors the source's own
`0 <= x < 8` guards.  Where the source would raise an exception that
`WindowGui.make_move` catches, the embedding returns the state as mutated
up to the raising statement (noted at each spot).
-/

namespace ChessGui

/-- Piece kinds, standing for the `Figure` subclasses of the source. -/
inductive PieceKind where
  | pawn | knight | bishop | rook | queen | king
deriving DecidableEq, Repr

/-- One `Figure` object: identity, subclass, `color`, `pos`, the
`has_moved` flag (meaningful for Rook/King), the `EnPassant` flag
(meaningful for Pawn, but present on every `Figure` in the source), and
the stored `validMovesList`. -/
structure Fig where
  fid : Nat
  kind : PieceKind
  color : Nat
  pos : Int × Int
  hasMoved : Bool := false
  enPassant : Bool := false
  validMovesList : List (Int × Int) := []
deriving DecidableEq, Repr

/-- An 8×8 grid, indexed `grid[y][x]` like the source's nested lists. -/
abbrev Grid (α : Type) := List (List α)

/-- `WindowGui.emptyMap`-style grid filled with a default value. -/
def mkGrid {α : Type} (v : α) : Grid α := List.replicate 8 (List.replicate 8 v)

/-- The source's `0 <= x < 8 and 0 <= y < 8` bounds test. -/
def inBoard (x y : Int) : Bool := 0 ≤ x && x < 8 && 0 ≤ y && y < 8

/-- Read `grid[y][x]`; out of bounds gives the default (the source only
reads inside its own bounds guards on every engine path modelled here). -/
def gridGet {α : Type} (g : Grid α) (d : α) (x y : Int) : α :=
  if inBoard x y then (g.getD y.toNat []).getD x.toNat d else d

/-- Write `grid[y][x] = v`; out of bounds is a no-op (never hit on the
modelled paths, which write only coordinates that passed `inBoard`). -/
def gridSet {α : Type} (g : Grid α) (x y : Int) (v : α) : Grid α :=
  if inBoard x y then g.set y.toNat ((g.getD y.toNat []).set x.toNat v) else g

/-- The board grid built by `WindowGui.scanBoard`: each `Figure` is
written at its `pos`, later list elements overwriting earlier ones. -/
abbrev Board := Grid (Option Fig)

/-- `WindowGui.scanBoard`. -/
def scanBoard (figs : List Fig) : Board :=
  figs.foldl (fun b f => gridSet b f.pos.1 f.pos.2 (some f)) (mkGrid none)

/-- Read `board[y][x]`. -/
def boardAt (b : Board) (x y : Int) : Option Fig := gridGet b none x y

/-- `direction_vectors` as set by each subclass constructor. -/
def directionVectors (k : PieceKind) (color : Nat) : List (Int × Int) :=
  match k with
  | .pawn => if color == 0 then [(0, 1)] else [(0, -1)]
  | .rook => [(1, 0), (-1, 0), (0, 1), (0, -1)]
  | .knight => [(2, 1), (2, -1), (-2, 1), (-2, -1), (1, 2), (1, -2), (-1, 2), (-1, -2)]
  | .bishop => [(1, 1), (1, -1), (-1, 1), (-1, -1)]
  | .queen => [(1, 0), (-1, 0), (0, 1), (0, -1), (1, 1), (1, -1), (-1, 1), (-1, -1)]
  | .king => [(1, 0), (-1, 0), (0, 1), (0, -1), (1, 1), (1, -1), (-1, 1), (-1, -1)]

/-- `self.range` as set by each subclass constructor. -/
def figRange (k : PieceKind) : Nat :=
  match k with
  | .pawn => 1
  | .knight => 1
  | .king => 1
  | _ => 8

/-- The `attackVectors` local of `Figure.pinMoves` / `Figure.threatMoves`:
pawns attack diagonally, everyone else uses `direction_vectors`. -/
def attackVectors (f : Fig) : List (Int × Int) :=
  if f.kind == .pawn then
    if f.color == 0 then [(-1, 1), (1, 1)] else [(-1, -1), (1, -1)]
  else directionVectors f.kind f.color

/-- Inner loop of `Figure.pinMoves` for one direction `d`, from step `i`
with the current `blocked` flag; returns the squares appended to
`temp_threats` (beyond the seed entry), the `threatens_king` flag, and
whether the king was seen unblocked (the direct-check case that sets
`parent.check`).  Off-board steps append nothing and continue, matching
the source loop which has no `else: break`. -/
def pinScanAux (board : Board) (f : Fig) (d : Int × Int) (blocked : Bool) :
    Nat → Nat → List ((Int × Int) × (Int × Int)) × Bool × Bool
  | _, 0 => ([], false, false)
  | i, fuel + 1 =>
    let x := f.pos.1 + d.1 * (i : Int)
    let y := f.pos.2 + d.2 * (i : Int)
    if inBoard x y then
      match boardAt board x y with
      | some p =>
        if p.color != f.color && p.kind == .king then ([((x, y), d)], true, !blocked)
        else if p.color == f.color then ([((x, y), d)], false, false)
        else if blocked then ([((x, y), d)], false, false)
        else
          let r := pinScanAux board f d true (i + 1) fuel
          (((x, y), d) :: r.1, r.2.1, r.2.2)
      | none =>
        let r := pinScanAux board f d blocked (i + 1) fuel
        (((x, y), d) :: r.1, r.2.1, r.2.2)
    else pinScanAux board f d blocked (i + 1) fuel

/-- `Figure.pinMoves` (lines 775-809): per attack direction, collect the
ray when it threatens the enemy king; the second component is the value
written to `parent.check` when a direct (unblocked) king threat is seen
(`1` when the attacker is black, `2` when white). -/
def pinMovesF (board : Board) (mc : Nat) (f : Fig) :
    List ((Int × Int) × (Int × Int)) × Option Nat :=
  if f.color == mc % 2 then ([], none)
  else
    (attackVectors f).foldl
      (fun acc d =>
        let r := pinScanAux board f d false 1 (figRange f.kind)
        (acc.1 ++ (if r.2.1 then (f.pos, d) :: r.1 else []),
         if r.2.1 && r.2.2 then some (if f.color == 1 then 1 else 2) else acc.2))
      ([], none)

/-- Inner loop of `Figure.threatMoves` for one direction: every visited
square is appended; the ray continues through an enemy king but stops at
any other piece. -/
def threatScanAux (board : Board) (f : Fig) (d : Int × Int) :
    Nat → Nat → List (Int × Int)
  | _, 0 => []
  | i, fuel + 1 =>
    let x := f.pos.1 + d.1 * (i : Int)
    let y := f.pos.2 + d.2 * (i : Int)
    if inBoard x y then
      match boardAt board x y with
      | some p =>
        if p.kind == .king && p.color != f.color then
          (x, y) :: threatScanAux board f d (i + 1) fuel
        else [(x, y)]
      | none => (x, y) :: threatScanAux board f d (i + 1) fuel
    else threatScanAux board f d (i + 1) fuel

/-- `Figure.threatMoves` (lines 811-831). -/
def threatMovesF (board : Board) (mc : Nat) (f : Fig) : List (Int × Int) :=
  if f.color == mc % 2 then []
  else
    (attackVectors f).foldl
      (fun acc d => acc ++ threatScanAux board f d 1 (figRange f.kind)) []

/-- Inner loop of `Figure.validMoves` for one direction: walk until a
piece or the edge; a square holding a same-color piece or any King is
never emitted, an enemy non-King square is emitted and ends the walk. -/
def rayScanAux (board : Board) (f : Fig) (d : Int × Int) :
    Nat → Nat → List (Int × Int)
  | _, 0 => []
  | i, fuel + 1 =>
    let x := f.pos.1 + d.1 * (i : Int)
    let y := f.pos.2 + d.2 * (i : Int)
    if inBoard x y then
      match boardAt board x y with
      | some p => if p.color == f.color || p.kind == .king then [] else [(x, y)]
      | none => (x, y) :: rayScanAux board f d (i + 1) fuel
    else []

/-- Python's `range(a, b)` over integers, as used by `King.castlingMoves`. -/
def intRange (a b : Int) : List Int :=
  (List.range (b - a).toNat).map (fun i : Nat => a + (i : Int))

/-- `King.castlingMoves` (lines 1166-1182): nothing while the king has
moved or `check` is 1 or 2; kingside needs an unmoved Rook on file 7,
files strictly between king and rook empty, and no `ThreatMap` mark on
files `king.x .. 6`; queenside needs an unmoved Rook on file 0, files
`1 .. king.x-1` empty, and no `ThreatMap` mark on files `0 .. king.x`.
The rook test is `isinstance(board[y][7], Rook)` - the rook's color is
not checked. -/
def castlingMovesF (board : Board) (tm : Grid Bool) (check : Nat)
    (kpos : Int × Int) (kHasMoved : Bool) : List (Int × Int) :=
  if kHasMoved || check == 1 || check == 2 then []
  else
    let y := kpos.2
    let kingside :=
      match boardAt board 7 y with
      | some r =>
        if r.kind == .rook && !r.hasMoved
            && (intRange (kpos.1 + 1) 7).all (fun x => boardAt board x y == none)
            && (intRange kpos.1 7).all (fun x => gridGet tm false x y == false) then
          [(kpos.1 + 2, y)]
        else []
      | none => []
    let queenside :=
      match boardAt board 0 y with
      | some r =>
        if r.kind == .rook && !r.hasMoved
            && (intRange 1 kpos.1).all (fun x => boardAt board x y == none)
            && (intRange 0 (kpos.1 + 1)).all (fun x => gridGet tm false x y == false) then
          [(kpos.1 - 2, y)]
        else []
      | none => []
    kingside ++ queenside

/-- `Pawn.specialFilters` (lines 1097-1129).  The incoming move list is
discarded and rebuilt: forward step onto an empty square, double step
from the starting rank, diagonal capture of an enemy non-King, and the
en-passant append - which tests only the flagged pawn beside the origin,
never the occupant of the destination square. -/
def pawnForward (board : Board) (f : Fig) : List (Int × Int) :=
  let step : Int := if f.color == 0 then 1 else -1
  let x := f.pos.1
  let y := f.pos.2
  let oneY := y + step
  let twoY := y + 2 * step
  if (0 ≤ oneY && oneY < 8) && boardAt board x oneY == none then
    (x, oneY) ::
      (if ((f.color == 0 && y == 1) || (f.color == 1 && y == 6))
          && boardAt board x twoY == none then
        [(x, twoY)]
      else [])
  else []

/-- One iteration of the diagonal-capture loop of `Pawn.specialFilters`
for offset `dx`: the normal capture of an enemy non-King on the
diagonal square, then the en-passant append, which looks only at the
piece beside the origin (`board[y][nx]`). -/
def pawnDiag (board : Board) (f : Fig) (dx : Int) : List (Int × Int) :=
  let nx := f.pos.1 + dx
  let ny := f.pos.2 + (if f.color == 0 then 1 else -1)
  if inBoard nx ny then
    (match boardAt board nx ny with
      | some t =>
        if t.color != f.color && !(t.kind == .king) then [(nx, ny)] else []
      | none => []) ++
    (match boardAt board nx f.pos.2 with
      | some s => if s.color != f.color && s.enPassant then [(nx, ny)] else []
      | none => [])
  else []

def pawnSpecialFilters (board : Board) (f : Fig) : List (Int × Int) :=
  pawnForward board f
    ++ [(-1 : Int), 1].foldl (fun acc dx => acc ++ pawnDiag board f dx) []

/-- `King.specialFilters` (lines 1184-1190): drop destinations marked in
the `ThreatMap`, then append the castling candidates. -/
def kingSpecialFilters (board : Board) (tm : Grid Bool) (check : Nat)
    (f : Fig) (moves : List (Int × Int)) : List (Int × Int) :=
  moves.filter (fun m => gridGet tm false m.1 m.2 == false)
    ++ castlingMovesF board tm check f.pos f.hasMoved

/-- `specialFilters` dispatch: `Pawn` and `King` override the identity
default of `Figure.specialFilters` (line 951). -/
def specialFiltersF (board : Board) (tm : Grid Bool) (check : Nat)
    (f : Fig) (moves : List (Int × Int)) : List (Int × Int) :=
  match f.kind with
  | .pawn => pawnSpecialFilters board f
  | .king => kingSpecialFilters board tm check f moves
  | _ => moves

/-- The direction-vector loop of `Figure.validMoves` (lines 845-868): a
direction is walked unless the piece's own square carries a `PinMap`
entry different from the direction and its reverse; the King skips the
pin test entirely. -/
def rawMoves (board : Board) (pm : Grid (Option (Int × Int))) (f : Fig) :
    List (Int × Int) :=
  (directionVectors f.kind f.color).foldl
    (fun acc d =>
      let keep : Bool :=
        match gridGet pm none f.pos.1 f.pos.2 with
        | none => true
        | some v => f.kind == .king || d == v || ((-d.1, -d.2) == v)
      if keep then acc ++ rayScanAux board f d 1 (figRange f.kind) else acc)
    []

/-- `Figure.validMoves` up to line 869: the raw direction walk followed
by the subclass `specialFilters`. -/
def preCheckMoves (board : Board) (tm : Grid Bool)
    (pm : Grid (Option (Int × Int))) (check : Nat) (f : Fig) : List (Int × Int) :=
  specialFiltersF board tm check f (rawMoves board pm f)

/-- `Figure.validMoves` (lines 833-881): empty when it is not the
piece's turn or `check` is in `[4, 5, 6, 7, 8, 9]`; then the raw walk
plus `specialFilters`; then, when the piece's own side is in check
(`check - 1 == color`) and the piece is not the King, only destinations
with a non-null `PinMap` entry are retained. -/
def computeValidMoves (board : Board) (tm : Grid Bool)
    (pm : Grid (Option (Int × Int))) (check mc : Nat) (f : Fig) : List (Int × Int) :=
  if mc % 2 != f.color then []
  else if check == 4 || check == 5 || check == 6 || check == 7 || check == 8 || check == 9 then []
  else
    let moves := preCheckMoves board tm pm check f
    if check == f.color + 1 && !(f.kind == .king) then
      moves.filter (fun m => gridGet pm none m.1 m.2 != none)
    else moves

/-- The engine-relevant state of `WindowGui`: the `Figure` elements of
`_gui_elements` in list order, `check`, the two derived maps,
`MoveCount`, `fiftyMoveCounter`, the move-history string list `MHList`
(notation modelled as `List Char`), and a counter for fresh `Figure`
identities (promotion creates a new object). -/
structure EngineState where
  figs : List Fig
  check : Nat
  pinMap : Grid (Option (Int × Int))
  threatMap : Grid Bool
  moveCount : Nat
  fiftyMoveCounter : Nat
  mhList : List (List Char)
  nextId : Nat
deriving DecidableEq, Repr

/-- First loop of `WindowGui.updateGameState` (lines 1836-1847): reset
both maps, then for every `Figure` in element order write its
`pinMoves` entries into `PinMap` (`PinMap[y][x] = (dx, dy)`), its
`threatMoves` entries into `ThreatMap` (`ThreatMap[y][x] = 1`), and let
the direct-king-threat side effect of `pinMoves` set `check`. -/
def buildMaps (st : EngineState) : EngineState :=
  let board := scanBoard st.figs
  st.figs.foldl
    (fun s f =>
      let r := pinMovesF board s.moveCount f
      let pm := r.1.foldl (fun g e => gridSet g e.1.1 e.1.2 (some e.2)) s.pinMap
      let tm := (threatMovesF board s.moveCount f).foldl
        (fun g t => gridSet g t.1 t.2 true) s.threatMap
      { s with
        pinMap := pm
        threatMap := tm
        check := match r.2 with | some c => c | none => s.check })
    { st with pinMap := mkGrid none, threatMap := mkGrid false }

/-- Second loop of `WindowGui.updateGameState` (lines 1848-1852):
recompute and store every `Figure`'s `validMovesList`. -/
def updateValidMoves (st : EngineState) : EngineState :=
  let board := scanBoard st.figs
  { st with
    figs := st.figs.map (fun f =>
      { f with validMovesList :=
          computeValidMoves board st.threatMap st.pinMap st.check st.moveCount f }) }

/-- `WindowGui.updateGameState` (lines 1834-1858): rebuild the maps,
recompute every `validMovesList`; if no piece has any move left, set
`check` to `6` (checkmate) when a side is in check, else `7`
(stalemate) - `EndGame` then stores the same value back into `check`. -/
def updateGameState (st : EngineState) : EngineState :=
  let s1 := updateValidMoves (buildMaps st)
  if s1.figs.all (fun f => f.validMovesList == []) then
    { s1 with check := if s1.check == 1 || s1.check == 2 then 6 else 7 }
  else s1

/-- Find the `Figure` object with a given identity. -/
def findFig (figs : List Fig) (i : Nat) : Option Fig := figs.find? (fun f => f.fid == i)

/-- `GuiElement.kill`: remove the object from `_gui_elements`. -/
def killFig (figs : List Fig) (i : Nat) : List Fig := figs.filter (fun f => f.fid != i)

/-- Mutate one `Figure`'s `pos`. -/
def setFigPos (figs : List Fig) (i : Nat) (p : Int × Int) : List Fig :=
  figs.map (fun f => if f.fid == i then { f with pos := p } else f)

/-- Mutate one `Figure`'s `has_moved` to `True`. -/
def setFigMovedFlag (figs : List Fig) (i : Nat) : List Fig :=
  figs.map (fun f => if f.fid == i then { f with hasMoved := true } else f)

/-- Mutate one `Figure`'s `EnPassant` to `True`. -/
def setFigEnPassant (figs : List Fig) (i : Nat) : List Fig :=
  figs.map (fun f => if f.fid == i then { f with enPassant := true } else f)

/-- The board-wide flag sweep at the top of `Pawn.EnPassantCheck`
(lines 1039-1043): every Pawn whose `EnPassant` flag is set has it
cleared.  It runs only when the moving piece is a Pawn, because only
`Pawn` defines `EnPassantCheck` and `Figure.move` calls it through
`hasattr` (line 889). -/
def clearEnPassantAll (figs : List Fig) : List Fig :=
  figs.map (fun f =>
    if f.kind == .pawn && f.enPassant then { f with enPassant := false } else f)

/-- `Pawn.EnPassantCheck` (lines 1038-1049) for a Pawn `mover`: clear
all flags; a diagonal move onto an empty square kills the pawn beside
the origin (the en-passant victim); otherwise a two-rank advance sets
the mover's own flag.  The second component is `true` when the victim
square is empty too - the source then raises `AttributeError` on
`None.kill()`, so the move aborts with only the flag sweep applied. -/
def enPassantPhase (figs : List Fig) (mover : Fig) (newPos : Int × Int) :
    List Fig × Bool :=
  let figs1 := clearEnPassantAll figs
  let board := scanBoard figs1
  if mover.pos.1 != newPos.1 && boardAt board newPos.1 newPos.2 == none then
    match boardAt board newPos.1 mover.pos.2 with
    | some captured => (killFig figs1 captured.fid, false)
    | none => (figs1, true)
  else if (mover.pos.2 - newPos.2).natAbs == 2 then
    (setFigEnPassant figs1 mover.fid, false)
  else (figs1, false)

/-- The `EnPassantCheck` call site of `Figure.move` (lines 889-890):
only a Pawn has the method, so only pawn moves touch the flags. -/
def epPhase (st : EngineState) (fig0 : Fig) (newPos : Int × Int) : List Fig × Bool :=
  if fig0.kind == .pawn then enPassantPhase st.figs fig0 newPos else (st.figs, false)

/-- The `target` of `Figure.move` (line 893): the occupant of the
destination on the board scanned after the en-passant phase. -/
def moveTargetF (figs1 : List Fig) (newPos : Int × Int) : Option Fig :=
  boardAt (scanBoard figs1) newPos.1 newPos.2

/-- The capture block of `Figure.move` (lines 892-899): an enemy on the
destination square is killed. -/
def captureKill (figs1 : List Fig) (fig0 : Fig) (target : Option Fig) : List Fig :=
  match target with
  | some t => if t.color != fig0.color then killFig figs1 t.fid else figs1
  | none => figs1

/-- The castling block of `Figure.move` (lines 901-912): a King moving
two files relocates the rook found on the corner of the `board`
snapshot; `none` models the `AttributeError` the source raises when
that corner is empty (`rook.pos` on `None`). -/
def castlePhase (board : Board) (fig0 : Fig) (figs2 : List Fig)
    (newPos : Int × Int) : Option (List Fig × Nat) :=
  if fig0.kind == .king && (fig0.pos.1 - newPos.1).natAbs == 2 then
    if newPos.1 == 6 then
      match boardAt board 7 fig0.pos.2 with
      | some rook => some (setFigPos figs2 rook.fid (5, fig0.pos.2), 1)
      | none => none
    else if newPos.1 == 2 then
      match boardAt board 0 fig0.pos.2 with
      | some rook => some (setFigPos figs2 rook.fid (3, fig0.pos.2), 2)
      | none => none
    else some (figs2, 0)
  else some (figs2, 0)

/-- Letter of a piece class in `PieceNameMap` of `Figure.MoveHistory`. -/
def pieceChar (k : PieceKind) : List Char :=
  match k with
  | .pawn => []
  | .knight => ['N']
  | .bishop => ['B']
  | .rook => ['R']
  | .queen => ['Q']
  | .king => ['K']

/-- `chr(x + 97)`: the file letter of an on-board square. -/
def fileChar (x : Int) : Char := Char.ofNat (97 + x.toNat)

/-- `str(y + 1)` for an on-board rank `0..7`. -/
def rankChar (y : Int) : Char := Char.ofNat (49 + y.toNat)

/-- `Figure.MoveHistory` (lines 954-987).  `others` is the snapshot of
pieces the disambiguation scan sees: the board grid scanned before the
move executed, whose entries other than the mover (excluded by
`fig != self`) and the captured piece (an enemy, excluded by the color
test) are unchanged at call time.  A pawn gets its origin file exactly
when `target` is non-null; other pieces compare against same-kind,
same-color pieces whose stored `validMovesList` contains the
destination.  `x` appears exactly when `target` is non-null; a
promotion appends `=<Letter>`; otherwise a castle replaces the whole
body with the literal token.  This def is the `disambiguate` part. -/
def disambChars (others : List Fig) (mover : Fig) (prevPos newPos : Int × Int)
    (target : Option Fig) : List Char :=
  if mover.kind == .pawn then
    if target != none then [fileChar prevPos.1] else []
  else
    let relevant := others.filter (fun f =>
      f.color == mover.color && f.kind == mover.kind && f.fid != mover.fid
        && decide (newPos ∈ f.validMovesList))
    let sameColumn := relevant.any (fun f => prevPos.1 == f.pos.1)
    let sameRow := relevant.any (fun f => prevPos.1 != f.pos.1)
    (if sameRow then [fileChar prevPos.1] else [])
      ++ (if sameColumn then [rankChar prevPos.2] else [])

/-- The interpolated body of the `Move` string of `Figure.MoveHistory`
(line 978): piece letter, disambiguation, `x` on a non-null target,
destination square. -/
def coreChars (others : List Fig) (mover : Fig) (prevPos newPos : Int × Int)
    (target : Option Fig) : List Char :=
  pieceChar mover.kind ++ disambChars others mover prevPos newPos target
    ++ (if target != none then ['x'] else [])
    ++ [fileChar newPos.1, rankChar newPos.2]

/-- `Figure.MoveHistory` assembled: the core body, then `=<Letter>` for
a promotion, else the castling literals replacing everything. -/
def moveHistoryF (others : List Fig) (mover : Fig) (prevPos newPos : Int × Int)
    (target : Option Fig) (castle : Nat) (promo : Option PieceKind) : List Char :=
  let core := coreChars others mover prevPos newPos target
  match promo with
  | some p => core ++ ['='] ++ pieceChar p
  | none =>
    if castle == 1 then ['O', '-', 'O']
    else if castle == 2 then ['O', '-', 'O', '-', 'O']
    else core

/-- Tail of `Figure.move` from line 914 on, entered once no exception
can occur: position update, promotion (`PromotionCheck` replaces the
pawn by a freshly created piece and leaves `check` at 0), `has_moved`
update for Rook/King, clearing of a live check flag (lines 923-924),
`MoveHistory`, `updateGameState`, the `#`/`+` suffix, `MHList` append,
fifty-move counter update, `EndGame(9)` at 100 (skipping the
`MoveCount` increment), else `MoveCount += 1`. -/
def finishMove (st : EngineState) (fig0 : Fig) (newPos : Int × Int)
    (promoChoice : PieceKind) (figs1 : List Fig) (target : Option Fig)
    (figsC : List Fig) (castle : Nat) : EngineState :=
  let prevPos := fig0.pos
  let figs3 := setFigPos figsC fig0.fid newPos
  let promoted :=
    fig0.kind == .pawn && newPos.2 == (if fig0.color == 0 then 7 else 0)
  let newPiece : Fig :=
    { fid := st.nextId, kind := promoChoice, color := fig0.color, pos := newPos }
  let figs4 :=
    if promoted then killFig (figs3 ++ [newPiece]) fig0.fid
    else figs3
  let promo : Option PieceKind := if promoted then some promoChoice else none
  let check0 := if promoted then 0 else st.check
  let figs5 :=
    if fig0.kind == .rook || fig0.kind == .king then setFigMovedFlag figs4 fig0.fid
    else figs4
  let check1 := if check0 == 1 || check0 == 2 then 0 else check0
  let mv := moveHistoryF figs1 fig0 prevPos newPos target castle promo
  let st2 := updateGameState { st with
    figs := figs5, check := check1,
    nextId := if promoted then st.nextId + 1 else st.nextId }
  let mv2 := mv ++ (if st2.check == 6 then ['#'] else [])
    ++ (if st2.check == 1 || st2.check == 2 then ['+'] else [])
  let st3 := { st2 with mhList := st2.mhList ++ [mv2] }
  let counter :=
    if fig0.kind == .pawn || target != none then 0
    else st3.fiftyMoveCounter + 1
  if 100 ≤ counter then { st3 with fiftyMoveCounter := counter, check := 9 }
  else { st3 with fiftyMoveCounter := counter, moveCount := st3.moveCount + 1 }

/-- `Figure.move` (lines 883-949), for the piece with identity `figId`
moving to `newPos`; `promoChoice` is the externally supplied promotion
decision that `PromotionCheck` waits for.  Pipeline, in source order:
`EnPassantCheck` (Pawn only), capture of an enemy on the destination,
castling rook relocation, position update, promotion (replace the pawn
by a fresh piece, `check` reset to 0), `has_moved` update (Rook/King),
clearing of a live check flag, `MoveHistory`, `updateGameState`, the
`#`/`+` suffix, `MHList` append, fifty-move counter update (reset on a
pawn move or non-null target), `EndGame(9)` at 100, else
`MoveCount += 1`.  The two abort paths return the state as mutated so
far, matching the exception caught by `make_move`. -/
def applyMove (st : EngineState) (figId : Nat) (newPos : Int × Int)
    (promoChoice : PieceKind) : EngineState :=
  match findFig st.figs figId with
  | none => st
  | some fig0 =>
    let ep := epPhase st fig0 newPos
    if ep.2 then { st with figs := ep.1 }
    else
      let figs1 := ep.1
      let board := scanBoard figs1
      let target := moveTargetF figs1 newPos
      let figs2 := captureKill figs1 fig0 target
      match castlePhase board fig0 figs2 newPos with
      | none => { st with figs := figs2 }
      | some (figsC, castle) =>
        finishMove st fig0 newPos promoChoice figs1 target figsC castle

/-- Parse the leading four characters of a move token as digits, as
`int(move[0]) .. int(move[3])` does; any failure is the `ValueError` /
`IndexError` that `make_move` catches. -/
def parseTok (tok : String) : Option ((Nat × Nat) × (Nat × Nat)) :=
  match tok.toList with
  | a :: b :: c :: d :: _ =>
    if a.isDigit && b.isDigit && c.isDigit && d.isDigit then
      some (((a.toNat - 48), (b.toNat - 48)), ((c.toNat - 48), (d.toNat - 48)))
    else none
  | _ => none

/-- `Pawn.EnPassantCheck` as far as it runs when the destination is off
the board: the board-wide flag sweep always completes; a file-changing
token then raises `IndexError` inside the capture test
(`board[new_pos[1]][new_pos[0]]`), but a same-file token short-circuits
that test and still reaches the `elif abs(self.pos[1] - new_pos[1]) == 2`
branch, setting the mover's own flag (a pawn on rank index 6 or 7 with
a destination rank 8 or 9) - only afterwards does `Figure.move` raise
on its own target lookup. -/
def enPassantPhaseOOR (figs : List Fig) (mover : Fig) (newPos : Int × Int) : List Fig :=
  let figs1 := clearEnPassantAll figs
  if mover.pos.1 != newPos.1 then figs1
  else if (mover.pos.2 - newPos.2).natAbs == 2 then setFigEnPassant figs1 mover.fid
  else figs1

/-- `WindowGui.make_move` (lines 1864-1875) on an already-stripped
token.  A malformed token, an out-of-range source (`IndexError` on
`board[pos1[1]][pos1[0]]`), or an empty source square leaves the state
unchanged.  There is no turn or legality validation: any piece found at
the source is moved.  An out-of-range destination raises inside
`Figure.move` - before any mutation for a non-Pawn mover, but after
the partial run of `EnPassantCheck` (`enPassantPhaseOOR`) when the
mover is a Pawn. -/
def makeMove (st : EngineState) (tok : String) (promoChoice : PieceKind) : EngineState :=
  match parseTok tok with
  | none => st
  | some ((fx, fy), (tx, ty)) =>
    if 8 ≤ fx || 8 ≤ fy then st
    else
      match boardAt (scanBoard st.figs) (fx : Int) (fy : Int) with
      | none => st
      | some piece =>
        if 8 ≤ tx || 8 ≤ ty then
          if piece.kind == .pawn then
            { st with figs := enPassantPhaseOOR st.figs piece ((tx : Int), (ty : Int)) }
          else st
        else applyMove st piece.fid ((tx : Int), (ty : Int)) promoChoice

/-- The back-rank creation order of `WindowGui.init_chess` (line 1734). -/
def backRank : List PieceKind :=
  [.rook, .knight, .bishop, .queen, .king, .bishop, .knight, .rook]

/-- The `Figure` objects created by `WindowGui.init_chess`
(lines 1726-1739), in `_gui_elements` order: for each color, eight
pawns on rank 1 (white) / 6 (black), then the back rank on rank 0 / 7. -/
def initFigs : List Fig :=
  ((List.range 2).map (fun color =>
    ((List.range 8).map (fun i =>
      ({ fid := color * 16 + i, kind := PieceKind.pawn, color := color,
         pos := ((i : Int), if color == 0 then 1 else 6) } : Fig)))
    ++ ((List.range 8).map (fun i =>
      ({ fid := color * 16 + 8 + i, kind := backRank.getD i .rook, color := color,
         pos := ((i : Int), if color == 0 then 0 else 7) } : Fig))))).flatten

/-- `WindowGui.__init__` engine setup (lines 1530-1553): pieces placed,
`check = 0`, maps empty, then `MoveCount = 0; updateGameState();
MoveCount = 1`, counters and history empty. -/
def initState : EngineState :=
  let st0 : EngineState :=
    { figs := initFigs, check := 0, pinMap := mkGrid none, threatMap := mkGrid false,
      moveCount := 0, fiftyMoveCounter := 0, mhList := [], nextId := 32 }
  { updateGameState st0 with moveCount := 1 }

/-- Replay a list of move tokens through `make_move` (as the network
client does for a stored game), with Queen as the standing promotion
decision. -/
def applySeq (st : EngineState) (toks : List String) : EngineState :=
  toks.foldl (fun s t => makeMove s t .queen) st

/-- The stored `validMovesList` of the piece on square `(x, y)`. -/
def vml (st : EngineState) (x y : Int) : List (Int × Int) :=
  match boardAt (scanBoard st.figs) x y with
  | some f => f.validMovesList
  | none => []

/-- The piece on square `(x, y)` of a state. -/
def figOn (st : EngineState) (x y : Int) : Option Fig :=
  boardAt (scanBoard st.figs) x y

/-! ### General lemmas about the embedding -/

theorem mem_intRange {a b x : Int} : x ∈ intRange a b ↔ a ≤ x ∧ x < b := by
  unfold intRange
  rw [List.mem_map]
  constructor
  · rintro ⟨i, hi, rfl⟩
    rw [List.mem_range] at hi
    omega
  · intro h
    refine ⟨(x - a).toNat, ?_, ?_⟩
    · rw [List.mem_range]
      omega
    · omega

theorem boardAt_oob (b : Board) (x y : Int) (h : inBoard x y = false) :
    boardAt b x y = none := by
  simp [boardAt, gridGet, h]

theorem foldl_append_mem {α β : Type} (g : β → List α) (l : List β) :
    ∀ (init : List α) (m : α),
      (m ∈ l.foldl (fun acc d => acc ++ g d) init ↔ m ∈ init ∨ ∃ d ∈ l, m ∈ g d) := by
  induction l with
  | nil => simp
  | cons hd tl ih =>
    intro init m
    simp only [List.foldl_cons, ih, List.mem_append, List.mem_cons]
    constructor
    · rintro (⟨h | h⟩ | ⟨d, hd1, hd2⟩)
      · exact Or.inl h
      · exact Or.inr ⟨hd, Or.inl rfl, h⟩
      · exact Or.inr ⟨d, Or.inr hd1, hd2⟩
    · rintro (h | ⟨d, (rfl | hd1), hd2⟩)
      · exact Or.inl (Or.inl h)
      · exact Or.inl (Or.inr hd2)
      · exact Or.inr ⟨d, hd1, hd2⟩

theorem ite_append_comm {α : Type} (p : Prop) [Decidable p] (acc l : List α) :
    (if p then acc ++ l else acc) = acc ++ (if p then l else []) := by
  split <;> simp

theorem rayScanAux_shape (board : Board) (f : Fig) (d : Int × Int) :
    ∀ (fuel i : Nat) (m : Int × Int), m ∈ rayScanAux board f d i fuel →
      ∃ k : Nat, i ≤ k ∧
        m = (f.pos.1 + d.1 * (k : Int), f.pos.2 + d.2 * (k : Int)) := by
  intro fuel
  induction fuel with
  | zero => intro i m h; simp [rayScanAux] at h
  | succ fuel ih =>
    intro i m h
    simp only [rayScanAux] at h
    split at h
    · split at h
      · split at h
        · simp at h
        · simp at h
          exact ⟨i, le_refl i, by simp [h]⟩
      · rcases List.mem_cons.mp h with h1 | h1
        · exact ⟨i, le_refl i, by simp [h1]⟩
        · obtain ⟨k, hk1, hk2⟩ := ih (i + 1) m h1
          exact ⟨k, by omega, hk2⟩
    · simp at h

theorem rayScanAux_occupant (board : Board) (f : Fig) (d : Int × Int) :
    ∀ (fuel i : Nat) (m : Int × Int), m ∈ rayScanAux board f d i fuel →
      ∀ g, boardAt board m.1 m.2 = some g → g.color ≠ f.color ∧ g.kind ≠ .king := by
  intro fuel
  induction fuel with
  | zero => intro i m h; simp [rayScanAux] at h
  | succ fuel ih =>
    intro i m h g hg
    simp only [rayScanAux] at h
    split at h
    · rename_i hib
      split at h
      · rename_i p hp
        split at h
        · simp at h
        · rename_i hcond
          simp at h
          subst h
          dsimp only at hg
          rw [hp] at hg
          obtain rfl : p = g := by injection hg
          simp only [Bool.or_eq_true, beq_iff_eq, not_or] at hcond
          exact ⟨by simpa using hcond.1, by simpa using hcond.2⟩
      · rename_i hp
        rcases List.mem_cons.mp h with h1 | h1
        · subst h1
          dsimp only at hg
          rw [hp] at hg
          cases hg
        · exact ih (i + 1) m h1 g hg
    · simp at h

theorem rawMoves_mem (board : Board) (pm : Grid (Option (Int × Int)))
    (f : Fig) (m : Int × Int) :
    m ∈ rawMoves board pm f ↔
      ∃ d ∈ directionVectors f.kind f.color,
        (match gridGet pm none f.pos.1 f.pos.2 with
          | none => true
          | some v => f.kind == .king || d == v || ((-d.1, -d.2) == v)) = true
        ∧ m ∈ rayScanAux board f d 1 (figRange f.kind) := by
  unfold rawMoves
  simp only [ite_append_comm]
  rw [foldl_append_mem]
  simp only [List.not_mem_nil, false_or]
  constructor
  · rintro ⟨d, hd, hm⟩
    split at hm
    · rename_i hkeep
      exact ⟨d, hd, hkeep, hm⟩
    · simp at hm
  · rintro ⟨d, hd, hkeep, hm⟩
    exact ⟨d, hd, by rw [if_pos hkeep]; exact hm⟩

theorem castlingMovesF_in_check (board : Board) (tm : Grid Bool) (check : Nat)
    (kpos : Int × Int) (hm : Bool) (h : (check == 1 || check == 2) = true) :
    castlingMovesF board tm check kpos hm = [] := by
  unfold castlingMovesF
  have h2 : (check == 1) = true ∨ (check == 2) = true := by simpa using h
  have hcond : (hm || check == 1 || check == 2) = true := by
    rcases h2 with h1 | h1 <;> rw [h1] <;> simp
  simp [hcond]

/-! ### C5 -/

/-- C5: whenever the side to move is in check (`check = color + 1`),
`validMoves` of a non-King piece of that side is exactly the
otherwise-generated list (`preCheckMoves`, i.e. the direction walk plus
`specialFilters`) filtered to destinations with a non-null `PinMap`
entry, while the King's list is instead the raw direction walk filtered
by the `ThreatMap` (its castling append is empty while in check). -/
theorem c5_check_evasion_mechanism (board : Board) (tm : Grid Bool)
    (pm : Grid (Option (Int × Int))) (check mc : Nat) (f : Fig)
    (hturn : mc % 2 = f.color) (hcheck : check = f.color + 1)
    (hcol : f.color = 0 ∨ f.color = 1) :
    (f.kind ≠ .king →
      computeValidMoves board tm pm check mc f =
        (preCheckMoves board tm pm check f).filter
          (fun m => gridGet pm none m.1 m.2 != none))
    ∧ (f.kind = .king →
      computeValidMoves board tm pm check mc f =
        (rawMoves board pm f).filter
          (fun m => gridGet tm false m.1 m.2 == false)) := by
  have hc4 : (check == 4 || check == 5 || check == 6 || check == 7
      || check == 8 || check == 9) = false := by
    rcases hcol with h | h <;> rw [hcheck, h] <;> decide
  have hcc : (check == f.color + 1) = true := by rw [hcheck]; exact beq_self_eq_true _
  constructor
  · intro hk
    have hkk : (f.kind == PieceKind.king) = false := by
      simpa using hk
    simp [computeValidMoves, hturn, hc4, hcc, hkk]
  · intro hk
    have hc12 : (check == 1 || check == 2) = true := by
      rcases hcol with h | h <;> rw [hcheck, h] <;> decide
    have hcast : castlingMovesF board tm check f.pos f.hasMoved = [] :=
      castlingMovesF_in_check board tm check f.pos f.hasMoved hc12
    simp [computeValidMoves, hturn, hc4, hcc, hk, preCheckMoves, specialFiltersF,
      kingSpecialFilters, hcast]

/-- Witness for C5 at a concrete in-check position: a white knight on
`(1, 0)` with `check = 1` keeps exactly the destinations carrying a
`PinMap` entry. -/
theorem c5_witness :
    computeValidMoves
        (scanBoard [{ fid := 0, kind := .knight, color := 0, pos := (1, 0) }])
        (mkGrid false) (gridSet (mkGrid none) 2 2 (some (1, 1))) 1 0
        { fid := 0, kind := .knight, color := 0, pos := (1, 0) }
      = [(2, 2)] := by
  have h := (c5_check_evasion_mechanism
      (scanBoard [{ fid := 0, kind := .knight, color := 0, pos := (1, 0) }])
      (mkGrid false) (gridSet (mkGrid none) 2 2 (some (1, 1))) 1 0
      { fid := 0, kind := .knight, color := 0, pos := (1, 0) }
      rfl rfl (Or.inl rfl)).1 (by decide)
  rw [h]
  decide

/-! ### C4 -/

/-- `m` lies on the axis through `pos` with direction `v`, in either
direction (negative `k` covers the reverse). -/
def onPinAxis (pos m v : Int × Int) : Prop :=
  ∃ k : Int, m.1 - pos.1 = k * v.1 ∧ m.2 - pos.2 = k * v.2

/-- C4 (amended): for every piece other than a Pawn or the King whose
square carries a non-null `PinMap` entry `v`, every destination in
`validMoves` lies on the pin axis through the piece's square (in either
direction).  Pawns are excluded because `Pawn.specialFilters` rebuilds
their move list without the pin test; the King is excluded because the
direction loop skips the pin test for it. -/
theorem c4_pin_axis_restriction_nonpawn (board : Board) (tm : Grid Bool)
    (pm : Grid (Option (Int × Int))) (check mc : Nat) (f : Fig) (v : Int × Int)
    (hpawn : f.kind ≠ .pawn) (hking : f.kind ≠ .king)
    (hpin : gridGet pm none f.pos.1 f.pos.2 = some v) :
    ∀ m ∈ computeValidMoves board tm pm check mc f, onPinAxis f.pos m v := by
  intro m hm
  unfold computeValidMoves at hm
  split at hm
  · simp at hm
  · split at hm
    · simp at hm
    · have hml : m ∈ preCheckMoves board tm pm check f := by
        split at hm
        · exact (List.mem_filter.mp hm).1
        · exact hm
      have hraw : m ∈ rawMoves board pm f := by
        unfold preCheckMoves specialFiltersF at hml
        cases hfk : f.kind <;> rw [hfk] at hml
        · exact absurd hfk hpawn
        · exact hml
        · exact hml
        · exact hml
        · exact hml
        · exact absurd hfk hking
      rw [rawMoves_mem] at hraw
      obtain ⟨d, _, hkeep, hray⟩ := hraw
      rw [hpin] at hkeep
      have hkf : (f.kind == PieceKind.king) = false := by simpa using hking
      rw [hkf] at hkeep
      simp only [Bool.false_or, Bool.or_eq_true, beq_iff_eq] at hkeep
      obtain ⟨k, _, hk2⟩ := rayScanAux_shape board f d _ 1 m hray
      subst hk2
      rcases hkeep with rfl | hneg
      · exact ⟨(k : Int), by dsimp only; ring, by dsimp only; ring⟩
      · obtain ⟨hv1, hv2⟩ : -d.1 = v.1 ∧ -d.2 = v.2 := by
          rw [Prod.mk.injEq] at hneg
          exact hneg
        refine ⟨-(k : Int), ?_, ?_⟩
        · dsimp only
          rw [← hv1]
          ring
        · dsimp only
          rw [← hv2]
          ring

/-- The position after `1. e4 e6 2. Nf3 Bb4` replayed through
`make_move`: every move is legal (each destination is in the moving
piece's stored `validMovesList` first), and it leaves the white d2 pawn
pinned by the bishop on b4. -/
def pinDemoState : EngineState := applySeq initState ["4143", "4645", "6052", "5713"]

/-- C4 counterexample: in `pinDemoState` the d2 pawn's square carries
the pin entry `(1, -1)`, yet its `validMovesList` offers the forward
push `(3, 2)`, which is not on the pin axis: the claimed restriction
does not cover a pawn's moves. -/
theorem c4_counterexample :
    gridGet pinDemoState.pinMap none 3 1 = some (1, -1)
    ∧ (figOn pinDemoState 3 1).map Fig.kind = some .pawn
    ∧ (3, 2) ∈ vml pinDemoState 3 1
    ∧ ¬ onPinAxis (3, 1) (3, 2) (1, -1) := by
  have h : gridGet pinDemoState.pinMap none 3 1 = some (1, -1)
      ∧ (figOn pinDemoState 3 1).map Fig.kind = some .pawn
      ∧ (3, 2) ∈ vml pinDemoState 3 1 := by decide
  refine ⟨h.1, h.2.1, h.2.2, ?_⟩
  rintro ⟨k, h1, h2⟩
  simp only at h1 h2
  omega

/-- Witness for C4 at a concrete pinned rook: every offered destination
of a rook pinned along `(0, 1)` stays on the file, e.g. `(4, 2)`. -/
theorem c4_witness : onPinAxis (4, 1) (4, 2) (0, 1) := by
  refine c4_pin_axis_restriction_nonpawn
    (scanBoard [{ fid := 0, kind := .rook, color := 0, pos := (4, 1) },
      { fid := 1, kind := .king, color := 0, pos := (4, 0) },
      { fid := 2, kind := .rook, color := 1, pos := (4, 7) }])
    (mkGrid false) (gridSet (mkGrid none) 4 1 (some (0, 1))) 0 0
    { fid := 0, kind := .rook, color := 0, pos := (4, 1) } (0, 1)
    (by decide) (by decide) (by decide) (4, 2) (by decide)

/-! ### C2 -/

/-- C2 (amended): a castling destination is offered exactly when the
king has not moved, the `check` flag is neither 1 nor 2, an unmoved
Rook sits on the relevant corner, the squares strictly between king and
rook are empty, and no `ThreatMap` mark sits on files `king.x .. 6`
(kingside) respectively files `0 .. king.x` (queenside) - the queenside
scan includes the rook file 0 and file 1, which the king does not
transit. -/
theorem c2_castling_characterization (board : Board) (tm : Grid Bool) (check : Nat)
    (kpos : Int × Int) (kHasMoved : Bool)
    (hx0 : 0 ≤ kpos.1) (hx8 : kpos.1 < 8) (hy0 : 0 ≤ kpos.2) (hy8 : kpos.2 < 8) :
    ((kpos.1 + 2, kpos.2) ∈ castlingMovesF board tm check kpos kHasMoved ↔
      (kHasMoved = false ∧ check ≠ 1 ∧ check ≠ 2
        ∧ (∃ r, boardAt board 7 kpos.2 = some r ∧ r.kind = .rook ∧ r.hasMoved = false)
        ∧ (∀ x ∈ intRange (kpos.1 + 1) 7, boardAt board x kpos.2 = none)
        ∧ (∀ x ∈ intRange kpos.1 7, gridGet tm false x kpos.2 = false)))
    ∧ ((kpos.1 - 2, kpos.2) ∈ castlingMovesF board tm check kpos kHasMoved ↔
      (kHasMoved = false ∧ check ≠ 1 ∧ check ≠ 2
        ∧ (∃ r, boardAt board 0 kpos.2 = some r ∧ r.kind = .rook ∧ r.hasMoved = false)
        ∧ (∀ x ∈ intRange 1 kpos.1, boardAt board x kpos.2 = none)
        ∧ (∀ x ∈ intRange 0 (kpos.1 + 1), gridGet tm false x kpos.2 = false))) := by
  unfold castlingMovesF
  by_cases htop : (kHasMoved || check == 1 || check == 2) = true
  · rw [if_pos htop]
    have hcontra : ¬(kHasMoved = false ∧ check ≠ 1 ∧ check ≠ 2) := by
      rintro ⟨h1, h2, h3⟩
      subst h1
      rcases (by simpa using htop : check = 1 ∨ check = 2) with h | h
      · exact h2 h
      · exact h3 h
    constructor
    · constructor
      · intro hmem
        simp at hmem
      · rintro ⟨h1, h2, h3, _⟩
        exact absurd ⟨h1, h2, h3⟩ hcontra
    · constructor
      · intro hmem
        simp at hmem
      · rintro ⟨h1, h2, h3, _⟩
        exact absurd ⟨h1, h2, h3⟩ hcontra
  · rw [if_neg htop]
    have hsplit : kHasMoved = false ∧ check ≠ 1 ∧ check ≠ 2 := by
      simp only [Bool.or_eq_true, not_or, Bool.not_eq_true, beq_eq_false_iff_ne] at htop
      exact ⟨htop.1.1, htop.1.2, htop.2⟩
    constructor
    · -- kingside membership
      constructor
      · intro hmem
        dsimp only at hmem
        rcases List.mem_append.mp hmem with hk | hq
        · split at hk
          · rename_i r hb7
            split at hk
            · rename_i hguard
              simp only [Bool.and_eq_true, beq_iff_eq, Bool.not_eq_true',
                List.all_eq_true, beq_iff_eq] at hguard
              refine ⟨hsplit.1, hsplit.2.1, hsplit.2.2,
                ⟨r, hb7, hguard.1.1.1, hguard.1.1.2⟩, ?_, ?_⟩
              · intro x hx
                exact hguard.1.2 x hx
              · intro x hx
                simpa using hguard.2 x hx
            · simp at hk
          · simp at hk
        · exfalso
          split at hq
          · split at hq
            · rw [List.mem_singleton, Prod.mk.injEq] at hq
              omega
            · simp at hq
          · simp at hq
      · rintro ⟨_, _, _, ⟨r, hb7, hrk, hrm⟩, hemp, hthr⟩
        dsimp only
        apply List.mem_append_left
        have hguard : (r.kind == PieceKind.rook && !r.hasMoved
            && (intRange (kpos.1 + 1) 7).all (fun x => boardAt board x kpos.2 == none)
            && (intRange kpos.1 7).all (fun x => gridGet tm false x kpos.2 == false))
            = true := by
          simp only [Bool.and_eq_true, beq_iff_eq, Bool.not_eq_true',
            List.all_eq_true, beq_iff_eq]
          refine ⟨⟨⟨hrk, hrm⟩, fun x hx => hemp x hx⟩, fun x hx => by simp [hthr x hx]⟩
        simp only [hb7, hguard, if_true]
        exact List.mem_singleton.mpr rfl
    · -- queenside membership
      constructor
      · intro hmem
        dsimp only at hmem
        rcases List.mem_append.mp hmem with hk | hq
        · exfalso
          split at hk
          · split at hk
            · rw [List.mem_singleton, Prod.mk.injEq] at hk
              omega
            · simp at hk
          · simp at hk
        · split at hq
          · rename_i r hb0
            split at hq
            · rename_i hguard
              simp only [Bool.and_eq_true, beq_iff_eq, Bool.not_eq_true',
                List.all_eq_true, beq_iff_eq] at hguard
              refine ⟨hsplit.1, hsplit.2.1, hsplit.2.2,
                ⟨r, hb0, hguard.1.1.1, hguard.1.1.2⟩, ?_, ?_⟩
              · intro x hx
                exact hguard.1.2 x hx
              · intro x hx
                simpa using hguard.2 x hx
            · simp at hq
          · simp at hq
      · rintro ⟨_, _, _, ⟨r, hb0, hrk, hrm⟩, hemp, hthr⟩
        dsimp only
        apply List.mem_append_right
        have hguard : (r.kind == PieceKind.rook && !r.hasMoved
            && (intRange 1 kpos.1).all (fun x => boardAt board x kpos.2 == none)
            && (intRange 0 (kpos.1 + 1)).all (fun x => gridGet tm false x kpos.2 == false))
            = true := by
          simp only [Bool.and_eq_true, beq_iff_eq, Bool.not_eq_true',
            List.all_eq_true, beq_iff_eq]
          refine ⟨⟨⟨hrk, hrm⟩, fun x hx => hemp x hx⟩, fun x hx => by simp [hthr x hx]⟩
        simp only [hb0, hguard, if_true]
        exact List.mem_singleton.mpr rfl

/-- A position with white king e1 and rook a1, both unmoved, a black
rook on b8 (attacking b1 only) and a black king on h8; derived maps
rebuilt by `updateGameState` with white to move. -/
def c2State : EngineState :=
  updateGameState
    { figs := [ { fid := 0, kind := .king, color := 0, pos := (4, 0) },
                { fid := 1, kind := .rook, color := 0, pos := (0, 0) },
                { fid := 2, kind := .rook, color := 1, pos := (1, 7) },
                { fid := 3, kind := .king, color := 1, pos := (7, 7), hasMoved := true } ],
      check := 0, pinMap := mkGrid none, threatMap := mkGrid false,
      moveCount := 2, fiftyMoveCounter := 0, mhList := [], nextId := 4 }

/-- C2 counterexample: in `c2State` every condition of the claim holds
for queenside castling - king and rook unmoved, squares strictly
between them empty, none of the king's transit squares `e1, d1, c1`
marked in the `ThreatMap`, the side not in check - yet `(2, 0)` is not
offered, because the code also requires files 0 and 1 (the rook's and
b1, attacked by the b8 rook) to be unthreatened. -/
theorem c2_counterexample :
    (figOn c2State 4 0).map Fig.kind = some .king
    ∧ (figOn c2State 4 0).map Fig.hasMoved = some false
    ∧ (figOn c2State 0 0).map Fig.kind = some .rook
    ∧ (figOn c2State 0 0).map Fig.hasMoved = some false
    ∧ (∀ x ∈ intRange 1 4, boardAt (scanBoard c2State.figs) x 0 = none)
    ∧ gridGet c2State.threatMap false 4 0 = false
    ∧ gridGet c2State.threatMap false 3 0 = false
    ∧ gridGet c2State.threatMap false 2 0 = false
    ∧ c2State.check = 0
    ∧ (2, 0) ∉ vml c2State 4 0
    ∧ (2, 0) ∉ castlingMovesF (scanBoard c2State.figs) c2State.threatMap
        c2State.check (4, 0) false := by
  decide

/-- Witness for C2 on a bare castling position: with both corners
holding unmoved rooks, empty ranks and an empty threat map, the
characterization yields the kingside destination. -/
theorem c2_witness :
    ((4 : Int) + 2, (0 : Int)) ∈ castlingMovesF
      (scanBoard [ { fid := 0, kind := .king, color := 0, pos := (4, 0) },
                   { fid := 1, kind := .rook, color := 0, pos := (0, 0) },
                   { fid := 2, kind := .rook, color := 0, pos := (7, 0) },
                   { fid := 3, kind := .king, color := 1, pos := (7, 7), hasMoved := true } ])
      (mkGrid false) 0 (4, 0) false := by
  refine ((c2_castling_characterization _ (mkGrid false) 0 (4, 0) false
    (by decide) (by decide) (by decide) (by decide)).1).mpr
    ⟨rfl, by decide, by decide,
      ⟨{ fid := 2, kind := .rook, color := 0, pos := (7, 0) }, by decide, rfl, rfl⟩,
      by decide, by decide⟩

/-! ### C6 -/

theorem foldl_state_preserve (g : EngineState → Fig → EngineState)
    (hg : ∀ s f, (g s f).fiftyMoveCounter = s.fiftyMoveCounter
      ∧ (g s f).moveCount = s.moveCount ∧ (g s f).mhList = s.mhList) :
    ∀ (l : List Fig) (s : EngineState),
      (l.foldl g s).fiftyMoveCounter = s.fiftyMoveCounter
      ∧ (l.foldl g s).moveCount = s.moveCount
      ∧ (l.foldl g s).mhList = s.mhList := by
  intro l
  induction l with
  | nil => intro s; exact ⟨rfl, rfl, rfl⟩
  | cons hd tl ih =>
    intro s
    rw [List.foldl_cons]
    obtain ⟨a, b, c⟩ := ih (g s hd)
    obtain ⟨a2, b2, c2⟩ := hg s hd
    exact ⟨a.trans a2, b.trans b2, c.trans c2⟩

theorem buildMaps_counters (st : EngineState) :
    (buildMaps st).fiftyMoveCounter = st.fiftyMoveCounter
    ∧ (buildMaps st).moveCount = st.moveCount
    ∧ (buildMaps st).mhList = st.mhList := by
  unfold buildMaps
  dsimp only
  apply foldl_state_preserve
  intro s f
  exact ⟨rfl, rfl, rfl⟩

theorem updateGameState_counters (st : EngineState) :
    (updateGameState st).fiftyMoveCounter = st.fiftyMoveCounter
    ∧ (updateGameState st).moveCount = st.moveCount := by
  have h := buildMaps_counters st
  have h1 : (updateValidMoves (buildMaps st)).fiftyMoveCounter = st.fiftyMoveCounter := by
    rw [show (updateValidMoves (buildMaps st)).fiftyMoveCounter
        = (buildMaps st).fiftyMoveCounter from rfl, h.1]
  have h2 : (updateValidMoves (buildMaps st)).moveCount = st.moveCount := by
    rw [show (updateValidMoves (buildMaps st)).moveCount
        = (buildMaps st).moveCount from rfl, h.2.1]
  unfold updateGameState
  dsimp only
  constructor
  · split
    · exact h1
    · exact h1
  · split
    · exact h2
    · exact h2

theorem computeValidMoves_terminal (board : Board) (tm : Grid Bool)
    (pm : Grid (Option (Int × Int))) (mc : Nat) (f : Fig) (c : Nat)
    (hc : c = 6 ∨ c = 7) :
    computeValidMoves board tm pm c mc f = [] := by
  rcases hc with rfl | rfl <;>
    · unfold computeValidMoves
      split
      · rfl
      · rfl

/-- C6: when the recomputation of every piece's `validMovesList` (the
second loop of `updateGameState`) leaves every list empty, the game
status becomes `6` (checkmate) exactly when the check flag derived for
the new position is 1 or 2, and `7` (stalemate) otherwise; and in the
resulting terminal status `validMoves` is empty for every piece of
either side, whatever the position and maps. -/
theorem c6_terminal_detection (st : EngineState)
    (h : (updateValidMoves (buildMaps st)).figs.all
      (fun f => f.validMovesList == []) = true) :
    ((updateGameState st).check =
      if (updateValidMoves (buildMaps st)).check = 1
          ∨ (updateValidMoves (buildMaps st)).check = 2 then 6 else 7)
    ∧ ∀ (board : Board) (tm : Grid Bool) (pm : Grid (Option (Int × Int)))
        (mc : Nat) (f : Fig),
        computeValidMoves board tm pm (updateGameState st).check mc f = [] := by
  have heq : updateGameState st =
      { (updateValidMoves (buildMaps st)) with
        check := if (updateValidMoves (buildMaps st)).check == 1
            || (updateValidMoves (buildMaps st)).check == 2 then 6 else 7 } := by
    unfold updateGameState
    rw [if_pos h]
  have hcheck : (updateGameState st).check =
      if (updateValidMoves (buildMaps st)).check = 1
          ∨ (updateValidMoves (buildMaps st)).check = 2 then 6 else 7 := by
    rw [heq]
    by_cases hc : (updateValidMoves (buildMaps st)).check = 1
        ∨ (updateValidMoves (buildMaps st)).check = 2
    · rw [if_pos hc]
      rcases hc with hc | hc <;> simp [hc]
    · rw [if_neg hc]
      push_neg at hc
      have h1 : ((updateValidMoves (buildMaps st)).check == 1) = false := by
        simpa using hc.1
      have h2 : ((updateValidMoves (buildMaps st)).check == 2) = false := by
        simpa using hc.2
      simp [h1, h2]
  refine ⟨hcheck, fun board tm pm mc f => ?_⟩
  apply computeValidMoves_terminal
  rw [hcheck]
  split
  · exact Or.inl rfl
  · exact Or.inr rfl

/-- A mated position: black king a8, white queen b7 guarded by the
white king on b6, black to move. -/
def mateState : EngineState :=
  { figs := [ { fid := 0, kind := .king, color := 1, pos := (0, 7), hasMoved := true },
              { fid := 1, kind := .queen, color := 0, pos := (1, 6) },
              { fid := 2, kind := .king, color := 0, pos := (1, 5), hasMoved := true } ],
    check := 0, pinMap := mkGrid none, threatMap := mkGrid false,
    moveCount := 1, fiftyMoveCounter := 0, mhList := [], nextId := 3 }

/-- Witness for C6: the mated position is detected as status 6. -/
theorem c6_witness : (updateGameState mateState).check = 6 := by
  have h := c6_terminal_detection mateState (by decide)
  rw [h.1]
  decide

/-! ### C7 -/

/-- C7: a completed move (the two exception paths excluded by the
hypotheses) resets the halfmove counter to 0 when the mover is a Pawn
or the destination held a piece, otherwise increments it; and whenever
the updated counter has reached 100 the status becomes `9`
(`FiftyMoveDraw`). -/
theorem finishMove_fifty (st : EngineState) (fig0 : Fig) (newPos : Int × Int)
    (promoChoice : PieceKind) (figs1 : List Fig) (target : Option Fig)
    (figsC : List Fig) (castle : Nat) :
    ((finishMove st fig0 newPos promoChoice figs1 target figsC castle).fiftyMoveCounter
      = if fig0.kind = .pawn ∨ target ≠ none then 0 else st.fiftyMoveCounter + 1)
    ∧ (100 ≤ (finishMove st fig0 newPos promoChoice figs1 target figsC castle).fiftyMoveCounter →
        (finishMove st fig0 newPos promoChoice figs1 target figsC castle).check = 9) := by
  unfold finishMove
  dsimp only
  rw [show (updateGameState { st with
      figs := if fig0.kind == .rook || fig0.kind == .king then
          setFigMovedFlag (if fig0.kind == .pawn
              && newPos.2 == (if fig0.color == 0 then 7 else 0) then
            killFig ((setFigPos figsC fig0.fid newPos)
              ++ [{ fid := st.nextId, kind := promoChoice, color := fig0.color,
                    pos := newPos }]) fig0.fid
          else setFigPos figsC fig0.fid newPos) fig0.fid
        else (if fig0.kind == .pawn
              && newPos.2 == (if fig0.color == 0 then 7 else 0) then
            killFig ((setFigPos figsC fig0.fid newPos)
              ++ [{ fid := st.nextId, kind := promoChoice, color := fig0.color,
                    pos := newPos }]) fig0.fid
          else setFigPos figsC fig0.fid newPos),
      check := if (if fig0.kind == .pawn
            && newPos.2 == (if fig0.color == 0 then 7 else 0) then 0 else st.check) == 1
          || (if fig0.kind == .pawn
            && newPos.2 == (if fig0.color == 0 then 7 else 0) then 0 else st.check) == 2
        then 0
        else (if fig0.kind == .pawn
            && newPos.2 == (if fig0.color == 0 then 7 else 0) then 0 else st.check),
      nextId := if fig0.kind == .pawn
          && newPos.2 == (if fig0.color == 0 then 7 else 0) then st.nextId + 1
        else st.nextId }).fiftyMoveCounter = st.fiftyMoveCounter
    from (updateGameState_counters _).1]
  have hc : (if fig0.kind == .pawn || target != none then (0 : Nat)
      else st.fiftyMoveCounter + 1) =
      if fig0.kind = .pawn ∨ target ≠ none then 0 else st.fiftyMoveCounter + 1 := by
    by_cases hp : fig0.kind = .pawn ∨ target ≠ none
    · rw [if_pos hp]
      have hb : (fig0.kind == .pawn || target != none) = true := by
        rcases hp with hp | hp
        · simp [hp]
        · simp [bne_iff_ne, hp]
      rw [hb]
      rfl
    · rw [if_neg hp]
      push_neg at hp
      have hb : (fig0.kind == .pawn || target != none) = false := by
        simp [hp.1, bne_eq_false_iff_eq.mpr hp.2]
      rw [hb]
      rfl
  rw [hc]
  constructor
  · split <;> split <;> rfl
  · split <;> split <;>
      first
        | (intro _; rfl)
        | (rename_i hguard; intro hge; exact absurd hge hguard)

/-- C7: a completed move (the two exception paths are excluded by the
hypotheses) resets the halfmove counter to 0 when the mover is a Pawn
or the destination held a piece, otherwise increments it; and whenever
the updated counter has reached 100 the status becomes `9`
(`FiftyMoveDraw`, skipping the turn change). -/
theorem c7_fifty_move_rule (st : EngineState) (figId : Nat) (newPos : Int × Int)
    (promoChoice : PieceKind) (fig : Fig)
    (h1 : findFig st.figs figId = some fig)
    (h2 : (epPhase st fig newPos).2 = false)
    (h3 : castlePhase (scanBoard (epPhase st fig newPos).1) fig
        (captureKill (epPhase st fig newPos).1 fig
          (moveTargetF (epPhase st fig newPos).1 newPos)) newPos ≠ none) :
    ((applyMove st figId newPos promoChoice).fiftyMoveCounter =
      if fig.kind = .pawn ∨ moveTargetF (epPhase st fig newPos).1 newPos ≠ none
      then 0 else st.fiftyMoveCounter + 1)
    ∧ (100 ≤ (applyMove st figId newPos promoChoice).fiftyMoveCounter →
        (applyMove st figId newPos promoChoice).check = 9) := by
  obtain ⟨⟨figsC, castle⟩, hcp⟩ : ∃ p, castlePhase (scanBoard (epPhase st fig newPos).1)
      fig (captureKill (epPhase st fig newPos).1 fig
        (moveTargetF (epPhase st fig newPos).1 newPos)) newPos = some p := by
    cases hcc : castlePhase (scanBoard (epPhase st fig newPos).1) fig
        (captureKill (epPhase st fig newPos).1 fig
          (moveTargetF (epPhase st fig newPos).1 newPos)) newPos with
    | none => exact absurd hcc h3
    | some p => exact ⟨p, rfl⟩
  have happ : applyMove st figId newPos promoChoice =
      finishMove st fig newPos promoChoice (epPhase st fig newPos).1
        (moveTargetF (epPhase st fig newPos).1 newPos) figsC castle := by
    unfold applyMove
    rw [h1]
    dsimp only
    rw [if_neg (by rw [h2]; exact Bool.false_ne_true)]
    rw [hcp]
  rw [happ]
  exact finishMove_fifty st fig newPos promoChoice (epPhase st fig newPos).1
    (moveTargetF (epPhase st fig newPos).1 newPos) figsC castle

/-- Witness for C7: the opening pawn move e2-e4 resets the counter. -/
theorem c7_witness :
    (applyMove initState 4 (4, 3) PieceKind.queen).fiftyMoveCounter = 0 := by
  have h := (c7_fifty_move_rule initState 4 (4, 3) PieceKind.queen
      { fid := 4, kind := .pawn, color := 0, pos := (4, 1),
        validMovesList := [(4, 2), (4, 3)] }
      (by decide) (by decide) (by decide)).1
  rw [h]
  decide

/-! ### C8 -/

/-- The request shapes `make_move` rejects: malformed token
(`ValueError` / `IndexError` while parsing), out-of-range source square
(`IndexError` on `board[pos1[1]][pos1[0]]`), or no piece at the source
(the `piece is not None` guard). -/
def rejectedRequest (st : EngineState) (tok : String) : Bool :=
  match parseTok tok with
  | none => true
  | some ((fx, fy), _) =>
    if 8 ≤ fx || 8 ≤ fy then true
    else boardAt (scanBoard st.figs) (fx : Int) (fy : Int) == none

/-- C8 (amended): a malformed token, an out-of-range source square, or
an empty source square is rejected with the state unchanged; when a
piece stands on the source square and the destination parses in range,
the move is executed unconditionally - `make_move` checks neither the
side to move nor membership in the piece's legal destination set; and
an out-of-range destination is rejected through the caught exception,
leaving the state unchanged for a non-Pawn mover but with the partial
`EnPassantCheck` run (flag sweep, plus the mover's own flag set by a
same-file token two ranks off the board) for a Pawn mover. -/
theorem c8_request_handling (st : EngineState) (tok : String) (pc : PieceKind) :
    (rejectedRequest st tok = true → makeMove st tok pc = st)
    ∧ (∀ fx fy tx ty piece,
        parseTok tok = some ((fx, fy), (tx, ty)) → fx < 8 → fy < 8 →
        boardAt (scanBoard st.figs) (fx : Int) (fy : Int) = some piece →
        tx < 8 → ty < 8 →
        makeMove st tok pc = applyMove st piece.fid ((tx : Int), (ty : Int)) pc)
    ∧ (∀ fx fy tx ty piece,
        parseTok tok = some ((fx, fy), (tx, ty)) → fx < 8 → fy < 8 →
        boardAt (scanBoard st.figs) (fx : Int) (fy : Int) = some piece →
        (8 ≤ tx ∨ 8 ≤ ty) →
        makeMove st tok pc =
          (if piece.kind == PieceKind.pawn then
            { st with figs := enPassantPhaseOOR st.figs piece ((tx : Int), (ty : Int)) }
          else st)) := by
  refine ⟨?_, ?_, ?_⟩
  · intro hrej
    unfold rejectedRequest at hrej
    unfold makeMove
    cases hp : parseTok tok with
    | none => rfl
    | some q =>
      obtain ⟨⟨fx, fy⟩, tx, ty⟩ := q
      rw [hp] at hrej
      dsimp only at hrej ⊢
      by_cases hr : ((decide (8 ≤ fx) || decide (8 ≤ fy)) = true)
      · rw [if_pos hr]
      · rw [if_neg hr]
        rw [if_neg hr] at hrej
        cases hb : boardAt (scanBoard st.figs) (fx : Int) (fy : Int) with
        | none => rfl
        | some piece =>
          rw [hb] at hrej
          simp at hrej
  · intro fx fy tx ty piece hp hfx hfy hb htx hty
    unfold makeMove
    rw [hp]
    dsimp only
    have hr1 : ¬ ((decide (8 ≤ fx) || decide (8 ≤ fy)) = true) := by
      have n1 : ¬ 8 ≤ fx := by omega
      have n2 : ¬ 8 ≤ fy := by omega
      simp [n1, n2]
    have hr2 : ¬ ((decide (8 ≤ tx) || decide (8 ≤ ty)) = true) := by
      have n1 : ¬ 8 ≤ tx := by omega
      have n2 : ¬ 8 ≤ ty := by omega
      simp [n1, n2]
    rw [if_neg hr1, hb]
    dsimp only
    rw [if_neg hr2]
  · intro fx fy tx ty piece hp hfx hfy hb hoor
    unfold makeMove
    rw [hp]
    dsimp only
    have hr1 : ¬ ((decide (8 ≤ fx) || decide (8 ≤ fy)) = true) := by
      have n1 : ¬ 8 ≤ fx := by omega
      have n2 : ¬ 8 ≤ fy := by omega
      simp [n1, n2]
    have hr2 : (decide (8 ≤ tx) || decide (8 ≤ ty)) = true := by
      rcases hoor with h | h <;> simp [h]
    rw [if_neg hr1, hb]
    dsimp only
    rw [if_pos hr2]

/-- C8 counterexample: from the initial position the request `0004`
(rook a1 to a5) names a destination that is not in the rook's
`validMovesList` - the a2 pawn blocks the file - yet `make_move`
executes it: the rook ends up on a5 and the state changes. -/
theorem c8_counterexample :
    (0, 4) ∉ vml initState 0 0
    ∧ (figOn initState 0 4 = none)
    ∧ ((figOn (makeMove initState "0004" PieceKind.queen) 0 4).map Fig.kind
        = some .rook)
    ∧ makeMove initState "0004" PieceKind.queen ≠ initState := by
  decide

/-- Witness for C8: the out-of-range-source request `9900` leaves the
initial state unchanged, and the same-file off-board request `0608` on
the a7 pawn runs the partial `EnPassantCheck`, leaving that pawn's
en-passant flag set. -/
theorem c8_witness :
    makeMove initState "9900" PieceKind.queen = initState
    ∧ (figOn (makeMove initState "0608" PieceKind.queen) 0 6).map Fig.enPassant
        = some true := by
  constructor
  · exact (c8_request_handling initState "9900" PieceKind.queen).1 (by decide)
  · have h := (c8_request_handling initState "0608" PieceKind.queen).2.2
      0 6 0 8 { fid := 16, kind := .pawn, color := 1, pos := (0, 6) }
      (by decide) (by decide) (by decide) (by decide) (Or.inr (by decide))
    rw [h]
    decide

/-! ### C9 -/

theorem fileChar_not_x (x : Int) (h0 : 0 ≤ x) (h8 : x < 8) : ¬ fileChar x = 'x' := by
  unfold fileChar
  have ht : x.toNat < 8 := by omega
  revert ht
  generalize x.toNat = t
  intro ht
  interval_cases t <;> decide

theorem rankChar_not_x (y : Int) (h0 : 0 ≤ y) (h8 : y < 8) : ¬ rankChar y = 'x' := by
  unfold rankChar
  have ht : y.toNat < 8 := by omega
  revert ht
  generalize y.toNat = t
  intro ht
  interval_cases t <;> decide

theorem x_not_mem_pieceChar (k : PieceKind) : 'x' ∉ pieceChar k := by
  cases k <;> decide

theorem x_not_mem_disambChars (others : List Fig) (mover : Fig)
    (prevPos newPos : Int × Int) (target : Option Fig)
    (hp0 : 0 ≤ prevPos.1) (hp1 : prevPos.1 < 8)
    (hp2 : 0 ≤ prevPos.2) (hp3 : prevPos.2 < 8) :
    'x' ∉ disambChars others mover prevPos newPos target := by
  have hf := fileChar_not_x prevPos.1 hp0 hp1
  have hr := rankChar_not_x prevPos.2 hp2 hp3
  unfold disambChars
  split
  · split
    · intro h
      rw [List.mem_singleton] at h
      exact hf h.symm
    · simp
  · dsimp only
    intro hmem
    rcases List.mem_append.mp hmem with h | h
    · split at h
      · rw [List.mem_singleton] at h
        exact hf h.symm
      · simp at h
    · split at h
      · rw [List.mem_singleton] at h
        exact hr h.symm
      · simp at h

theorem x_mem_coreChars_iff (others : List Fig) (mover : Fig)
    (prevPos newPos : Int × Int) (target : Option Fig)
    (hp0 : 0 ≤ prevPos.1) (hp1 : prevPos.1 < 8)
    (hp2 : 0 ≤ prevPos.2) (hp3 : prevPos.2 < 8)
    (hn0 : 0 ≤ newPos.1) (hn1 : newPos.1 < 8)
    (hn2 : 0 ≤ newPos.2) (hn3 : newPos.2 < 8) :
    ('x' ∈ coreChars others mover prevPos newPos target ↔ target ≠ none) := by
  have hA := x_not_mem_pieceChar mover.kind
  have hB := x_not_mem_disambChars others mover prevPos newPos target hp0 hp1 hp2 hp3
  have hf := fileChar_not_x newPos.1 hn0 hn1
  have hr := rankChar_not_x newPos.2 hn2 hn3
  unfold coreChars
  constructor
  · intro h
    rcases List.mem_append.mp h with h1 | h1
    · rcases List.mem_append.mp h1 with h2 | h2
      · rcases List.mem_append.mp h2 with h3 | h3
        · exact absurd h3 hA
        · exact absurd h3 hB
      · split at h2
        · rename_i hcond
          exact bne_iff_ne.mp hcond
        · simp at h2
    · rcases List.mem_cons.mp h1 with h2 | h2
      · exact absurd h2.symm hf
      · rw [List.mem_singleton] at h2
        exact absurd h2.symm hr
  · intro h
    apply List.mem_append_left
    apply List.mem_append_right
    have hcond : (target != none) = true := bne_iff_ne.mpr h
    rw [hcond, if_pos rfl]
    exact List.mem_singleton.mpr rfl

/-- C9 (amended): in the generated notation body, `x` appears exactly
when the sampled `target` is non-null and the body is not replaced by a
castling literal - and for an en-passant capture `target` IS null,
because the victim is removed before the board is scanned (see the
counterexample); a promotion's notation is the core followed by `=` and
the chosen piece's letter; a castling move's notation is exactly the
literal token. -/
theorem c9_notation_content (others : List Fig) (mover : Fig)
    (prevPos newPos : Int × Int) (target : Option Fig) (castle : Nat)
    (promo : Option PieceKind)
    (hp0 : 0 ≤ prevPos.1) (hp1 : prevPos.1 < 8)
    (hp2 : 0 ≤ prevPos.2) (hp3 : prevPos.2 < 8)
    (hn0 : 0 ≤ newPos.1) (hn1 : newPos.1 < 8)
    (hn2 : 0 ≤ newPos.2) (hn3 : newPos.2 < 8)
    (hpromo : ∀ p, promo = some p →
      p = .queen ∨ p = .rook ∨ p = .bishop ∨ p = .knight) :
    ('x' ∈ moveHistoryF others mover prevPos newPos target castle promo ↔
      target ≠ none ∧ (promo ≠ none ∨ (castle ≠ 1 ∧ castle ≠ 2)))
    ∧ (∀ p, promo = some p → ∃ c, pieceChar p = [c] ∧
        moveHistoryF others mover prevPos newPos target castle promo =
          coreChars others mover prevPos newPos target ++ ['=', c])
    ∧ (promo = none → castle = 1 →
        moveHistoryF others mover prevPos newPos target castle promo = ['O', '-', 'O'])
    ∧ (promo = none → castle = 2 →
        moveHistoryF others mover prevPos newPos target castle promo
          = ['O', '-', 'O', '-', 'O']) := by
  have hcore := x_mem_coreChars_iff others mover prevPos newPos target
    hp0 hp1 hp2 hp3 hn0 hn1 hn2 hn3
  refine ⟨?_, ?_, ?_, ?_⟩
  · unfold moveHistoryF
    cases hpr : promo with
    | some p =>
      dsimp only
      constructor
      · intro h
        rcases List.mem_append.mp h with h1 | h1
        · rcases List.mem_append.mp h1 with h2 | h2
          · exact ⟨hcore.mp h2, Or.inl (by simp)⟩
          · simp at h2
        · exact absurd h1 (x_not_mem_pieceChar p)
      · intro h
        exact List.mem_append_left _ (List.mem_append_left _ (hcore.mpr h.1))
    | none =>
      dsimp only
      by_cases hc1 : castle = 1
      · rw [if_pos (by simpa using hc1)]
        constructor
        · intro h
          simp at h
        · rintro ⟨_, h | ⟨h2, _⟩⟩
          · exact absurd rfl h
          · exact absurd hc1 h2
      · rw [if_neg (by simpa using hc1)]
        by_cases hc2 : castle = 2
        · rw [if_pos (by simpa using hc2)]
          constructor
          · intro h
            simp at h
          · rintro ⟨_, h | ⟨_, h2⟩⟩
            · exact absurd rfl h
            · exact absurd hc2 h2
        · rw [if_neg (by simpa using hc2)]
          rw [hcore]
          constructor
          · intro h
            exact ⟨h, Or.inr ⟨hc1, hc2⟩⟩
          · intro h
            exact h.1
  · intro p hpr
    subst hpr
    obtain ⟨c, hc⟩ : ∃ c, pieceChar p = [c] := by
      rcases hpromo p rfl with h | h | h | h <;> subst h
      · exact ⟨'Q', rfl⟩
      · exact ⟨'R', rfl⟩
      · exact ⟨'B', rfl⟩
      · exact ⟨'N', rfl⟩
    refine ⟨c, hc, ?_⟩
    unfold moveHistoryF
    dsimp only
    rw [hc]
    rw [List.append_assoc]
    rfl
  · intro hpr hc1
    subst hpr
    subst hc1
    unfold moveHistoryF
    rfl
  · intro hpr hc2
    subst hpr
    subst hc2
    unfold moveHistoryF
    rfl

/-- The state after replaying 1. e4 a6 2. e5 d5 3. exd5 e.p. - a legal
en-passant capture (the capture square d6 is in the e5 pawn's stored
`validMovesList` beforehand). -/
def epCaptureState : EngineState :=
  applySeq initState ["4143", "0605", "4344", "3634", "4435"]

/-- C9 counterexample: the en-passant capture 3. exd5 removes a pawn (31
pieces remain, the capturing pawn moved diagonally to d6, the victim's
square d5 is empty), yet the generated notation is `d6` - no `x` and no
file disambiguator - because the victim was removed before the board
was scanned for the notation's target. -/
theorem c9_counterexample :
    ((3, 5) ∈ vml (applySeq initState ["4143", "0605", "4344", "3634"]) 4 4)
    ∧ epCaptureState.mhList.getLastD [] = ['d', '6']
    ∧ ('x' ∉ epCaptureState.mhList.getLastD [])
    ∧ epCaptureState.figs.length = 31
    ∧ (figOn epCaptureState 3 5).map (fun f => (f.kind, f.color)) = some (.pawn, 0)
    ∧ figOn epCaptureState 3 4 = none
    ∧ figOn epCaptureState 4 4 = none := by
  decide

/-- Witness for C9: a knight capture's notation does contain `x`. -/
theorem c9_witness :
    'x' ∈ moveHistoryF [] { fid := 0, kind := .knight, color := 0, pos := (6, 0) }
      (6, 0) (5, 2) (some { fid := 1, kind := .pawn, color := 1, pos := (5, 2) })
      0 none := by
  have h := (c9_notation_content []
    { fid := 0, kind := .knight, color := 0, pos := (6, 0) }
    (6, 0) (5, 2) (some { fid := 1, kind := .pawn, color := 1, pos := (5, 2) }) 0 none
    (by decide) (by decide) (by decide) (by decide)
    (by decide) (by decide) (by decide) (by decide)
    (by intro p hp; exact Option.noConfusion hp)).1
  exact h.mpr ⟨by decide, Or.inr ⟨by decide, by decide⟩⟩

/-! ### C10 -/

theorem boardAt_of_ge8 (b : Board) (x y : Int) (h : 8 ≤ x) : boardAt b x y = none := by
  apply boardAt_oob
  unfold inBoard
  have hx : ¬ x < 8 := by omega
  simp [hx]

theorem boardAt_of_neg (b : Board) (x y : Int) (h : x < 0) : boardAt b x y = none := by
  apply boardAt_oob
  unfold inBoard
  have hx : ¬ 0 ≤ x := by omega
  simp [hx]

theorem castlingMovesF_occupant (board : Board) (tm : Grid Bool) (check : Nat)
    (kpos : Int × Int) (hm : Bool) :
    ∀ m ∈ castlingMovesF board tm check kpos hm, ∀ g,
      boardAt board m.1 m.2 = some g → g.kind ≠ .king := by
  intro m hmem g hg
  unfold castlingMovesF at hmem
  split at hmem
  · simp at hmem
  · dsimp only at hmem
    rcases List.mem_append.mp hmem with hk | hq
    · split at hk
      · rename_i r hb7
        split at hk
        · rename_i hguard
          rw [List.mem_singleton] at hk
          subst hk
          dsimp only at hg
          simp only [Bool.and_eq_true, List.all_eq_true, beq_iff_eq] at hguard
          rcases lt_trichotomy (kpos.1 + 2) 7 with h7 | h7 | h7
          · have hnone := hguard.1.2 (kpos.1 + 2)
              (mem_intRange.mpr ⟨by omega, h7⟩)
            rw [hnone] at hg
            cases hg
          · rw [h7, hb7] at hg
            obtain rfl : r = g := by injection hg
            rw [hguard.1.1.1]
            decide
          · rw [boardAt_of_ge8 board _ _ (by omega)] at hg
            cases hg
        · simp at hk
      · simp at hk
    · split at hq
      · rename_i r hb0
        split at hq
        · rename_i hguard
          rw [List.mem_singleton] at hq
          subst hq
          dsimp only at hg
          simp only [Bool.and_eq_true, List.all_eq_true, beq_iff_eq] at hguard
          rcases lt_trichotomy (kpos.1 - 2) 0 with h0 | h0 | h0
          · rw [boardAt_of_neg board _ _ h0] at hg
            cases hg
          · rw [h0, hb0] at hg
            obtain rfl : r = g := by injection hg
            rw [hguard.1.1.1]
            decide
          · have hnone := hguard.1.2 (kpos.1 - 2)
              (mem_intRange.mpr ⟨by omega, by omega⟩)
            rw [hnone] at hg
            cases hg
        · simp at hq
      · simp at hq

theorem pawnForward_empty (board : Board) (f : Fig) :
    ∀ m ∈ pawnForward board f, boardAt board m.1 m.2 = none := by
  intro m hm
  unfold pawnForward at hm
  dsimp only at hm
  generalize (if (f.color == 0) = true then (1 : Int) else -1) = stp at hm
  split at hm
  · rename_i hcond1
    simp only [Bool.and_eq_true, beq_iff_eq] at hcond1
    rcases List.mem_cons.mp hm with h1 | h1
    · subst h1
      exact hcond1.2
    · split at h1
      · rename_i hcond2
        simp only [Bool.and_eq_true, beq_iff_eq] at hcond2
        rw [List.mem_singleton] at h1
        subst h1
        exact hcond2.2
      · simp at h1
  · simp at hm

theorem pawnDiag_occupant (board : Board) (f : Fig) (dx : Int) :
    ∀ m ∈ pawnDiag board f dx, ∀ g, boardAt board m.1 m.2 = some g →
      g.kind = .king →
      ∃ s, boardAt board m.1 f.pos.2 = some s
        ∧ s.color ≠ f.color ∧ s.enPassant = true := by
  intro m hm g hg hgk
  unfold pawnDiag at hm
  dsimp only at hm
  generalize (if (f.color == 0) = true then (1 : Int) else -1) = stp at hm
  split at hm
  · rcases List.mem_append.mp hm with hcap | hep
    · exfalso
      split at hcap
      · rename_i t ht
        split at hcap
        · rename_i hcond
          rw [List.mem_singleton] at hcap
          subst hcap
          dsimp only at hg
          rw [ht] at hg
          obtain rfl : t = g := by injection hg
          simp only [Bool.and_eq_true, bne_iff_ne, Bool.not_eq_true',
            beq_eq_false_iff_ne] at hcond
          exact hcond.2 hgk
        · simp at hcap
      · simp at hcap
    · split at hep
      · rename_i s hs
        split at hep
        · rename_i hcond
          rw [List.mem_singleton] at hep
          subst hep
          simp only [Bool.and_eq_true, bne_iff_ne] at hcond
          exact ⟨s, hs, hcond.1, hcond.2⟩
        · simp at hep
      · simp at hep
  · simp at hm

/-- C10 (amended): a destination square occupied by a King (of either
color) can appear in a piece's `validMoves` only through the pawn
en-passant branch: in that case the mover is a Pawn and a flagged enemy
pawn stands beside its origin on the destination file.  The direction
walks, the pawn's forward and normal-capture moves, and the castling
destinations never target a King's square. -/
theorem c10_king_capture_only_en_passant (board : Board) (tm : Grid Bool)
    (pm : Grid (Option (Int × Int))) (check mc : Nat) (f : Fig) :
    ∀ m ∈ computeValidMoves board tm pm check mc f, ∀ g,
      boardAt board m.1 m.2 = some g → g.kind = .king →
      f.kind = .pawn ∧ ∃ s, boardAt board m.1 f.pos.2 = some s
        ∧ s.color ≠ f.color ∧ s.enPassant = true := by
  intro m hm g hg hgk
  unfold computeValidMoves at hm
  split at hm
  · simp at hm
  · split at hm
    · simp at hm
    · have hml : m ∈ preCheckMoves board tm pm check f := by
        split at hm
        · exact (List.mem_filter.mp hm).1
        · exact hm
      unfold preCheckMoves specialFiltersF at hml
      cases hfk : f.kind <;> rw [hfk] at hml
      · -- pawn
        unfold pawnSpecialFilters at hml
        rcases List.mem_append.mp hml with hfw | hdg
        · rw [pawnForward_empty board f m hfw] at hg
          cases hg
        · rw [foldl_append_mem] at hdg
          rcases hdg with hdg | ⟨dx, _, hdg⟩
          · simp at hdg
          · exact ⟨rfl, pawnDiag_occupant board f dx m hdg g hg hgk⟩
      · obtain ⟨d, _, _, hray⟩ := (rawMoves_mem board pm f m).mp hml
        exact absurd hgk (rayScanAux_occupant board f d _ 1 m hray g hg).2
      · obtain ⟨d, _, _, hray⟩ := (rawMoves_mem board pm f m).mp hml
        exact absurd hgk (rayScanAux_occupant board f d _ 1 m hray g hg).2
      · obtain ⟨d, _, _, hray⟩ := (rawMoves_mem board pm f m).mp hml
        exact absurd hgk (rayScanAux_occupant board f d _ 1 m hray g hg).2
      · obtain ⟨d, _, _, hray⟩ := (rawMoves_mem board pm f m).mp hml
        exact absurd hgk (rayScanAux_occupant board f d _ 1 m hray g hg).2
      · unfold kingSpecialFilters at hml
        rcases List.mem_append.mp hml with hk | hc
        · have hraw := (List.mem_filter.mp hk).1
          obtain ⟨d, _, _, hray⟩ := (rawMoves_mem board pm f m).mp hraw
          exact absurd hgk (rayScanAux_occupant board f d _ 1 m hray g hg).2
        · exact absurd hgk
            (castlingMovesF_occupant board tm check f.pos f.hasMoved m hc g hg)

/-- The state reached from the initial position by the `make_move`
token sequence d7-d4 (an illegal hop, executed because `make_move`
validates nothing - see C8), d2-d3, Ke1-d2, Kd2-c3, c2-c4: a black pawn
on d4, the white king on c3 (the square the c-pawn just passed over),
and the freshly flagged white pawn on c4. -/
def kingCapState : EngineState :=
  applySeq initState ["3633", "3132", "4031", "3122", "2123"]

/-- C10 counterexample: in `kingCapState` the black d4 pawn's
`validMovesList` is exactly `[(2, 2)]` - the white king's square,
offered by the en-passant branch - and replaying the capture token
removes the white king from the board. -/
theorem c10_counterexample :
    vml kingCapState 3 3 = [(2, 2)]
    ∧ (figOn kingCapState 3 3).map Fig.kind = some .pawn
    ∧ (figOn kingCapState 2 2).map (fun f => (f.kind, f.color)) = some (.king, 0)
    ∧ (makeMove kingCapState "3322" PieceKind.queen).figs.all
        (fun f => !(f.kind == .king && f.color == 0)) = true := by
  decide

/-- Witness for C10 on a small board: a black pawn on d4 beside a
flagged white pawn on c4, the white king on c3; the pawn's offered
king-square destination satisfies the en-passant characterization. -/
theorem c10_witness :
    ({ fid := 0, kind := .pawn, color := 1, pos := (3, 3) } : Fig).kind = .pawn
    ∧ ∃ s, boardAt (scanBoard
          [ { fid := 0, kind := .pawn, color := 1, pos := (3, 3) },
            { fid := 1, kind := .king, color := 0, pos := (2, 2), hasMoved := true },
            { fid := 2, kind := .pawn, color := 0, pos := (2, 3), enPassant := true },
            { fid := 3, kind := .king, color := 1, pos := (7, 7), hasMoved := true } ])
        ((2, 2) : Int × Int).1
        ({ fid := 0, kind := .pawn, color := 1, pos := (3, 3) } : Fig).pos.2 = some s
      ∧ s.color ≠ ({ fid := 0, kind := .pawn, color := 1, pos := (3, 3) } : Fig).color
      ∧ s.enPassant = true := by
  exact c10_king_capture_only_en_passant
    (scanBoard
      [ { fid := 0, kind := .pawn, color := 1, pos := (3, 3) },
        { fid := 1, kind := .king, color := 0, pos := (2, 2), hasMoved := true },
        { fid := 2, kind := .pawn, color := 0, pos := (2, 3), enPassant := true },
        { fid := 3, kind := .king, color := 1, pos := (7, 7), hasMoved := true } ])
    (mkGrid false) (mkGrid none) 0 1
    { fid := 0, kind := .pawn, color := 1, pos := (3, 3) }
    (2, 2) (by decide)
    { fid := 1, kind := .king, color := 0, pos := (2, 2), hasMoved := true }
    (by decide) rfl

/-! ### C1 -/

/-- Whether the piece standing on `atk` attacks `sq` by the source's
own attack computation (`Figure.threatMoves`) in the given state. -/
def attackedBySquare (st : EngineState) (atk sq : Int × Int) : Bool :=
  match boardAt (scanBoard st.figs) atk.1 atk.2 with
  | some b => decide (sq ∈ threatMovesF (scanBoard st.figs) st.moveCount b)
  | none => false

/-- The position after the pinned d2 pawn pushes to d3 out of
`pinDemoState`. -/
def pinnedPushState : EngineState := makeMove pinDemoState "3132" PieceKind.queen

/-- C1: the check-safety invariant fails on the code.  The legal game
1. e4 e6 2. Nf3 Bb4 is replayed (each destination is in the moving
piece's stored `validMovesList` beforehand, so every position on the
way is reachable by legal moves); in the resulting position the d2 pawn
- pinned by the bishop on b4 - is still offered the push d3, and after
playing it the white king on e1 stands on a square attacked by that
bishop, as computed by the source's own `threatMoves`. -/
theorem c1_check_safety_violated :
    ((4, 3) ∈ vml initState 4 1)
    ∧ ((4, 5) ∈ vml (applySeq initState ["4143"]) 4 6)
    ∧ ((5, 2) ∈ vml (applySeq initState ["4143", "4645"]) 6 0)
    ∧ ((1, 3) ∈ vml (applySeq initState ["4143", "4645", "6052"]) 5 7)
    ∧ ((3, 2) ∈ vml pinDemoState 3 1)
    ∧ (figOn pinDemoState 3 1).map Fig.kind = some .pawn
    ∧ gridGet pinDemoState.pinMap none 3 1 ≠ none
    ∧ (figOn pinnedPushState 4 0).map (fun f => (f.kind, f.color))
        = some (.king, 0)
    ∧ (figOn pinnedPushState 1 3).map Fig.kind = some .bishop
    ∧ attackedBySquare pinnedPushState (1, 3) (4, 0) = true := by
  decide

/-! ### C3 -/

/-- C3: the board-wide en-passant flag sweep runs only when the moving
piece is a Pawn (`hasattr(self, "EnPassantCheck")` is true only for
`Pawn`), so a flag survives any number of non-pawn plies.  After 1. e4
the e4 pawn's flag is set; black's legal reply Ng8-f6 does not clear
it: the flag is still set two plies after being set. -/
theorem c3_flag_survives_nonpawn_move :
    ((figOn (applySeq initState ["4143"]) 4 3).map Fig.enPassant = some true)
    ∧ ((5, 5) ∈ vml (applySeq initState ["4143"]) 6 7)
    ∧ ((figOn (applySeq initState ["4143", "6755"]) 4 3).map Fig.enPassant
        = some true) := by
  decide

end ChessGui
